import Mathlib

/-!
Verification of the tiered backup rotator (`mirrorBackups.py`) and its
sandboxed file-operation layer (`myshutil.py`).

The Python code is shallowly embedded: pure helpers become Lean functions,
the external shell commands (`cp`, `rm`, `mkdir`) become a trace of
operations together with a success oracle `exec : Op → Bool` standing for
the subprocess return codes, and filesystem paths become canonical
absolute paths, modelled as their list of components below the root
(`standardize_path` output).  The deployment platform of the script is
CPython 3.5 on Linux/glibc (the source says so explicitly), which fixes
two platform-dependent behaviours modelled here: `int()` accepts
surrounding ASCII whitespace and one sign but no underscore grouping, and
`strftime` `%Y` prints the year without zero padding.
-/

/-- A calendar date, the relevant projections of a Python `datetime`
(year, month, day).  Values produced by `mkDatetime` always satisfy
`validDate`. -/
structure Date where
  year : Nat
  month : Nat
  day : Nat
deriving DecidableEq, Repr

/-- Leap-year test, as in CPython's `datetime` module. -/
def isLeap (y : Nat) : Bool :=
  y % 4 = 0 && (y % 100 ≠ 0 || y % 400 = 0)

/-- Days in a month, as in CPython's `datetime._days_in_month`. -/
def daysInMonth (y m : Nat) : Nat :=
  if m = 2 then (if isLeap y then 29 else 28)
  else if m = 4 ∨ m = 6 ∨ m = 9 ∨ m = 11 then 30
  else 31

/-- The dates accepted by the `datetime(year, month, day)` constructor:
`MINYEAR = 1 ≤ year ≤ 9999 = MAXYEAR`, `1 ≤ month ≤ 12`,
`1 ≤ day ≤ days_in_month`. -/
def validDate (y m d : Nat) : Bool :=
  (1 ≤ y && y ≤ 9999) && (1 ≤ m && m ≤ 12) && (1 ≤ d && d ≤ daysInMonth y m)

/-- The `datetime(year, month, day)` constructor on the integers produced
by `int()`: raises (here `none`) unless the arguments form a valid date. -/
def mkDatetime (y m d : Int) : Option Date :=
  if 1 ≤ y ∧ y ≤ 9999 ∧ 1 ≤ m ∧ m ≤ 12 ∧ 1 ≤ d ∧ d ≤ (daysInMonth y.toNat m.toNat : Int)
  then some ⟨y.toNat, m.toNat, d.toNat⟩ else none

/-- Chronological order on dates (year, then month, then day). -/
def dateLe (a b : Date) : Bool :=
  a.year < b.year ||
    (a.year = b.year &&
      (a.month < b.month || (a.month = b.month && a.day ≤ b.day)))

/-- ASCII decimal digit test (`'0'` to `'9'`). -/
def isDigitB (c : Char) : Bool := 48 ≤ c.toNat && c.toNat ≤ 57

/-- ASCII whitespace stripped by CPython's `int()`:
space, tab, newline, carriage return, vertical tab, form feed. -/
def isPySpace (c : Char) : Bool :=
  c.toNat = 32 || c.toNat = 9 || c.toNat = 10 ||
    c.toNat = 13 || c.toNat = 11 || c.toNat = 12

/-- Value of a nonempty all-digit character list, most significant digit
first; `none` otherwise. -/
def digitsVal (cs : List Char) : Option Nat :=
  if !cs.isEmpty && cs.all isDigitB then
    some (cs.foldl (fun a c => 10 * a + (c.toNat - 48)) 0)
  else none

/-- CPython 3.5 `int(s)` on a character list, exact for ASCII arguments:
strip surrounding whitespace (on ASCII exactly TAB LF VT FF CR SPACE,
checked against CPython; the controls 0x1C-0x1F are rejected), allow one
leading ASCII sign, then require a nonempty run of decimal digits
(underscore grouping is a 3.6 feature and the script documents that it
runs on 3.5).  Outside ASCII, CPython additionally accepts Unicode
decimal digits and Unicode whitespace, which this model omits, so
statements that conclude from a parse *failure* are scoped to ASCII
names. -/
def pyIntCore (cs : List Char) : Option Int :=
  let t := ((cs.dropWhile isPySpace).reverse.dropWhile isPySpace).reverse
  match t with
  | [] => none
  | c :: rest =>
    if c = '+' then (digitsVal rest).map Int.ofNat
    else if c = '-' then (digitsVal rest).map (fun n => -(n : Int))
    else (digitsVal (c :: rest)).map Int.ofNat

/-- CPython 3.5 `int(s)` for a string argument. -/
def pyInt (s : String) : Option Int := pyIntCore s.data

/-- The ASCII character of a decimal digit. -/
def natDigitChar (d : Nat) : Char := Char.ofNat (48 + d)

/-- Decimal digits of `n`, most significant first; the first argument is
fuel (any bound on `n` works, see `natDigitsAux_foldl`). -/
def natDigitsAux : Nat → Nat → List Char
  | 0, _ => []
  | fuel + 1, n =>
    if n = 0 then []
    else natDigitsAux fuel (n / 10) ++ [natDigitChar (n % 10)]

/-- Decimal representation of a natural number, as printed by `%d`-style
formatting (no padding). -/
def natStrBE (n : Nat) : List Char :=
  if n = 0 then ['0'] else natDigitsAux n n

/-- Two-digit zero-padded decimal representation, as printed by the
`strftime` fields `%m` and `%d` for values below 100. -/
def pad2L (n : Nat) : List Char :=
  if n < 10 then [natDigitChar 0, natDigitChar n] else natStrBE n

/-- A backup directory name laid out like `'{:%Y_%m_%d}'`, but with the
two separator characters abstracted: year digits, a separator, two month
digits, a separator, two day digits.  With both separators `'_'` this is
exactly the encoder's output; other separators are used to probe the
decoder. -/
def mkNameL (y m d : Nat) (c1 c2 : Char) : List Char :=
  natStrBE y ++ c1 :: (pad2L m ++ c2 :: pad2L d)

/-- `'{:%Y_%m_%d}'.format(date)`: glibc `%Y` prints the year digits with
no zero padding (a four-character field only for years ≥ 1000), `%m` and
`%d` zero-pad to two characters. -/
def encodeDate (dte : Date) : String :=
  String.mk (mkNameL dte.year dte.month dte.day '_' '_')

/-- `path_to_date` from `mirrorBackups.py` on the final path component
(the code takes `path.name` first): reject names whose length is not 10,
then parse `name[:4]`, `name[5:7]`, `name[8:]` with `int()` and build a
`datetime`; any failure yields `None`.  The characters at positions 4
and 7 are never examined. -/
def path_to_dateL (cs : List Char) : Option Date :=
  if cs.length = 10 then
    match pyIntCore (cs.take 4), pyIntCore ((cs.drop 5).take 2),
        pyIntCore (cs.drop 8) with
    | some y, some m, some d => mkDatetime y m d
    | _, _, _ => none
  else none

/-- `path_to_date` on the name string of a directory entry. -/
def path_to_date (name : String) : Option Date := path_to_dateL name.data

-- Sanity examples for the codec.
example : path_to_date "2024_03_05" = some ⟨2024, 3, 5⟩ := by decide
example : path_to_date "2024-03-05" = some ⟨2024, 3, 5⟩ := by decide
example : path_to_date "2024_13_05" = none := by decide
example : path_to_date "notadate" = none := by decide
example : path_to_date "2024_02_29" = some ⟨2024, 2, 29⟩ := by decide
example : path_to_date "2023_02_29" = none := by decide
example : path_to_date "2024_ 3_05" = some ⟨2024, 3, 5⟩ := by decide
example : encodeDate ⟨2024, 3, 5⟩ = "2024_03_05" := by decide
example : encodeDate ⟨5, 1, 2⟩ = "5_01_02" := by decide
example : pyInt "2024" = some 2024 := by decide
example : pyInt "1_0" = none := by decide
example : pyInt "+3" = some 3 := by decide
example : pyInt "" = none := by decide

/-- A canonical absolute filesystem path (the output of
`standardize_path`, i.e. `os.path.realpath` of an expanded path): the
list of its components below the root, so `[]` is `/` and
`["media", "otterback1"]` is `/media/otterback1`. -/
abbrev PyPath := List String

/-- `str()` of a `pathlib.Path`: `/`-joined components. -/
def pathStr (p : PyPath) : String := "/" ++ String.intercalate "/" p

/-- `Path.parents`: the strict ancestors of a path, nearest first, down
to the root; empty for the root itself. -/
def parents (p : PyPath) : List PyPath :=
  ((List.range p.length).map (fun i => p.take i)).reverse

/-- `is_sandboxed` from `myshutil.py`: true iff some element of
`path.parents` equals the module's `__SANDBOX` (which is `None` until
`set_sandbox` runs; `Path == None` is `False`).  The argument is taken
already standardized. -/
def is_sandboxed (sandboxDir : Option PyPath) (p : PyPath) : Bool :=
  (parents p).any (fun q => some q == sandboxDir)

/-- `Backup` from `mirrorBackups.py`: a dated snapshot directory. -/
structure Backup where
  path : PyPath
  date : Date
deriving DecidableEq, Repr

instance : Inhabited Backup := ⟨⟨[], ⟨1, 1, 1⟩⟩⟩

/-- The `source` argument passed to `myshutil.copy`: the call sites pass
either a `Path` (or path string) or — in the yearly-promotion branch —
a whole `Backup` object.  `copy` applies `str()` to it (`pyStr`). -/
inductive SrcArg where
  | pathArg (p : PyPath)
  | backupObjArg (b : Backup)
deriving DecidableEq, Repr

/-- `str(source)` inside `myshutil.copy`.  For a path this is the path
string; for a `Backup` instance (the class defines no `__str__`) it is
the default object repr `<module.Backup object at 0xADDR>`, whose module
qualifier and address vary per run and are abstracted as arguments. -/
def pyStr (module addr : String) : SrcArg → String
  | .pathArg p => pathStr p
  | .backupObjArg _ => "<" ++ module ++ ".Backup object at " ++ addr ++ ">"

/-- One shell command issued through `myshutil._run`. -/
inductive Op where
  | copyOp (source : SrcArg) (dest : PyPath)
  | rmOp (target : PyPath)
  | mkdirOp (target : PyPath)
deriving DecidableEq, Repr

/-- Success oracle for the external commands: `exec op = true` models a
zero return code from the spawned process. -/
abbrev ExecOracle := Op → Bool

/-- The oracle under which every external command succeeds. -/
def execOk : ExecOracle := fun _ => true

/-- `myshutil.copy(source, dest, sandbox)`: refuse (returning `False`,
with no command spawned) when the sandbox check is on and `dest` is not
sandboxed; otherwise run `cp -pr str(source) str(dest)` and return
whether its return code was zero (`ret.returncode is not 0` on small
ints behaves as `≠ 0`).  Alongside the boolean result we return the list
of commands actually spawned. -/
def copy (sandboxDir : Option PyPath) (exec : ExecOracle) (source : SrcArg)
    (dest : PyPath) (sandbox : Bool) : Bool × List Op :=
  if sandbox && !is_sandboxed sandboxDir dest then (false, [])
  else
    let op := Op.copyOp source dest
    (exec op, [op])

/-- `myshutil.rm(path, sandbox)`: same sandbox-check-first discipline,
then `rm -rf path`. -/
def rm (sandboxDir : Option PyPath) (exec : ExecOracle) (path : PyPath)
    (sandbox : Bool) : Bool × List Op :=
  if sandbox && !is_sandboxed sandboxDir path then (false, [])
  else
    let op := Op.rmOp path
    (exec op, [op])

/-- Outcome of a Python call that either returns a bool or raises. -/
inductive PyResult where
  | ok (b : Bool)
  | nameError
deriving DecidableEq, Repr

/-- `myshutil.mkdir(path, sandbox)`: sandbox check first, then `mkdir`.
On a nonzero return code the code calls `logg_err(...)` — an undefined
name (the helper is `_log_err`) — so instead of returning `False` it
raises `NameError`. -/
def mkdir (sandboxDir : Option PyPath) (exec : ExecOracle) (path : PyPath)
    (sandbox : Bool) : PyResult × List Op :=
  if sandbox && !is_sandboxed sandboxDir path then (.ok false, [])
  else
    let op := Op.mkdirOp path
    if exec op then (.ok true, [op]) else (.nameError, [op])

/-- Code-point-wise strict comparison of character lists: CPython's `<`
on strings. -/
def chLstLt : List Char → List Char → Bool
  | [], [] => false
  | [], _ :: _ => true
  | _ :: _, [] => false
  | a :: as, b :: bs =>
    if a.toNat < b.toNat then true
    else if b.toNat < a.toNat then false
    else chLstLt as bs

/-- CPython string `<`. -/
def strLt (a b : String) : Bool := chLstLt a.data b.data

/-- CPython tuple/list comparison, non-strict: `pathlib` paths compare by
their parts tuple, element-wise by string comparison, a strict prefix
ranking below its extensions. -/
def pathLe : PyPath → PyPath → Bool
  | [], _ => true
  | _ :: _, [] => false
  | a :: as, b :: bs =>
    if strLt a b then true
    else if strLt b a then false
    else pathLe as bs

/-- The sort relation of `scan_existing`'s `backups.sort(key=lambda x:
x.path)`. -/
def backupLe (a b : Backup) : Prop := pathLe a.path b.path = true

instance : DecidableRel backupLe := fun a b =>
  inferInstanceAs (Decidable (_ = true))

/-- A directory entry as seen by `Path.iterdir`: its name and whether it
is a directory. -/
structure DirEntry where
  name : String
  isDir : Bool
deriving DecidableEq, Repr

/-- The body of `scan_existing`'s loop: keep directories whose name
decodes, building a `Backup` carrying the full path and the date. -/
def validEntries (parent : PyPath) (entries : List DirEntry) : List Backup :=
  entries.filterMap (fun e =>
    if e.isDir then
      (path_to_date e.name).map (fun d => ⟨parent ++ [e.name], d⟩)
    else none)

/-- `scan_existing(path)` from `mirrorBackups.py`: collect the decodable
subdirectories of a tier directory, then sort them by path. -/
def scan_existing (parent : PyPath) (entries : List DirEntry) : List Backup :=
  List.insertionSort backupLe (validEntries parent entries)

/-- `SANDBOX = Path('/media/otterback1/mirror')`, the mirror root. -/
def SANDBOX : PyPath := ["media", "otterback1", "mirror"]

/-- `SOURCE = '/media/otterback0/full'`, the backup source tree. -/
def SOURCE : PyPath := ["media", "otterback0", "full"]

/-- `WEEKLY_PATH = DEST / 'weekly'` (already standardized). -/
def WEEKLY_PATH : PyPath := SANDBOX ++ ["weekly"]

/-- `MONTHLY_PATH = DEST / 'monthly'`. -/
def MONTHLY_PATH : PyPath := SANDBOX ++ ["monthly"]

/-- `YEARLY_PATH = DEST / 'yearly'`. -/
def YEARLY_PATH : PyPath := SANDBOX ++ ["yearly"]

/-- `MAX_WEEKLIES = 5`. -/
def MAX_WEEKLIES : Nat := 5

/-- `MAX_MONTHLIES = 6`. -/
def MAX_MONTHLIES : Nat := 6

/-- `date_to_path(date, parent)`: parent path extended by the formatted
date directory name. -/
def date_to_path (dte : Date) (parent : PyPath) : PyPath :=
  parent ++ [encodeDate dte]

/-- The promotion-selection loop of `MirrorBackup`: starting from the
default `xs[0]`, scan `xs` in order and stop at the first element whose
key equals the target (the newest entry's key), leaving the default when
no element matches. -/
def findPromote (key : Backup → Nat) (target : Nat) :
    List Backup → Backup → Backup
  | [], dflt => dflt
  | x :: xs, dflt =>
    if key x = target then x else findPromote key target xs dflt

/-- The month-boundary block of `MirrorBackup` (step 4): with a nonempty
pre-existing weekly inventory, compare the newest weekly's month number
with today's; on a difference, copy the first weekly whose month equals
the newest weekly's month into the monthly tier.  Returns the boolean
that gates `sys.exit(1)` and the spawned commands. -/
def monthCheck (sandboxDir : Option PyPath) (exec : ExecOracle)
    (today : Date) (weeklies : List Backup) : Bool × List Op :=
  match weeklies with
  | [] => (true, [])
  | w :: ws =>
    let prevWeek := (w :: ws).getLast (List.cons_ne_nil w ws)
    if prevWeek.date.month = today.month then (true, [])
    else
      let backupWeek :=
        findPromote (fun b => b.date.month) prevWeek.date.month (w :: ws) w
      copy sandboxDir exec (.pathArg backupWeek.path) MONTHLY_PATH true

/-- The year-boundary block of `MirrorBackup` (step 5), keyed on the year
and reading the pre-promotion monthly inventory.  Unlike the monthly
branch, the source passed to `sh.copy` is `backupMonth` — the `Backup`
object itself, not `backupMonth.path`. -/
def yearCheck (sandboxDir : Option PyPath) (exec : ExecOracle)
    (today : Date) (monthlies : List Backup) : Bool × List Op :=
  match monthlies with
  | [] => (true, [])
  | m :: ms =>
    let prevMonth := (m :: ms).getLast (List.cons_ne_nil m ms)
    if prevMonth.date.year = today.year then (true, [])
    else
      let backupMonth :=
        findPromote (fun b => b.date.year) prevMonth.date.year (m :: ms) m
      copy sandboxDir exec (.backupObjArg backupMonth) YEARLY_PATH true

/-- One pruning loop of `MirrorBackup` (steps 6 and 7): while the
inventory holds more than `k` entries, pop its oldest entry and
`sh.rm` it, aborting on a removal failure.  Returns the gating boolean,
the spawned commands, and the remaining inventory. -/
def pruneLoop (sandboxDir : Option PyPath) (exec : ExecOracle) (k : Nat) :
    List Backup → Bool × List Op × List Backup
  | [] => (true, [], [])
  | x :: xs =>
    if (x :: xs).length ≤ k then (true, [], x :: xs)
    else
      match rm sandboxDir exec x.path true with
      | (true, ops) =>
        let r := pruneLoop sandboxDir exec k xs
        (r.1, ops ++ r.2.1, r.2.2)
      | (false, ops) => (false, ops, xs)

/-- `MirrorBackup()`: one rotation cycle over the directory listings of
the three tiers.  Sets the sandbox, scans the tiers, copies the source
into today's weekly snapshot, runs the month- and year-boundary checks
against the pre-existing inventories, and prunes the weekly and monthly
tiers; any failed command aborts with exit status 1 (`sys.exit(1)`).
Returns the exit status and the spawned commands in order. -/
def MirrorBackup (exec : ExecOracle) (today : Date)
    (weeklyEntries monthlyEntries yearlyEntries : List DirEntry) :
    Nat × List Op :=
  let sd : Option PyPath := some SANDBOX
  let weeklies := scan_existing WEEKLY_PATH weeklyEntries
  let monthlies := scan_existing MONTHLY_PATH monthlyEntries
  let _yearlies := scan_existing YEARLY_PATH yearlyEntries
  let todaysBackup : Backup := ⟨date_to_path today WEEKLY_PATH, today⟩
  let s0 := copy sd exec (.pathArg SOURCE) todaysBackup.path true
  if !s0.1 then (1, s0.2) else
  let s1 := monthCheck sd exec today weeklies
  if !s1.1 then (1, s0.2 ++ s1.2) else
  let s2 := yearCheck sd exec today monthlies
  if !s2.1 then (1, s0.2 ++ s1.2 ++ s2.2) else
  let s3 := pruneLoop sd exec (MAX_WEEKLIES - 1) weeklies
  if !s3.1 then (1, s0.2 ++ s1.2 ++ s2.2 ++ s3.2.1) else
  let s4 := pruneLoop sd exec (MAX_MONTHLIES - 1) monthlies
  if !s4.1 then (1, s0.2 ++ s1.2 ++ s2.2 ++ s3.2.1 ++ s4.2.1)
  else (0, s0.2 ++ s1.2 ++ s2.2 ++ s3.2.1 ++ s4.2.1)

-- Sanity: scenario A of the spec — empty tiers, today 2024-03-10.
example :
    MirrorBackup execOk ⟨2024, 3, 10⟩ [] [] [] =
      (0, [Op.copyOp (.pathArg SOURCE) (WEEKLY_PATH ++ ["2024_03_10"])]) := by
  decide

-- Sanity: scenario B — month boundary promotes 2024_03_03, not W[0].
example :
    MirrorBackup execOk ⟨2024, 4, 1⟩
        [⟨"2024_02_25", true⟩, ⟨"2024_03_03", true⟩] [] [] =
      (0, [Op.copyOp (.pathArg SOURCE) (WEEKLY_PATH ++ ["2024_04_01"]),
           Op.copyOp (.pathArg (WEEKLY_PATH ++ ["2024_03_03"])) MONTHLY_PATH]) := by
  decide

-- Sanity: sandbox refusal aborts before any command runs.
example : copy (some SANDBOX) execOk (.pathArg SOURCE) ["etc"] true = (false, []) := by
  decide

-- Sanity: the year boundary passes the Backup object, and the failing
-- copy aborts the cycle with exit status 1.
example :
    MirrorBackup (fun op => op != Op.copyOp
        (.backupObjArg ⟨MONTHLY_PATH ++ ["2023_12_03"], ⟨2023, 12, 3⟩⟩) YEARLY_PATH)
      ⟨2024, 1, 7⟩ [⟨"2024_01_01", true⟩] [⟨"2023_12_03", true⟩] [] =
    (1, [Op.copyOp (.pathArg SOURCE) (WEEKLY_PATH ++ ["2024_01_07"]),
         Op.copyOp (.backupObjArg ⟨MONTHLY_PATH ++ ["2023_12_03"], ⟨2023, 12, 3⟩⟩)
           YEARLY_PATH]) := by
  decide

/-! ### Supporting lemmas: decimal printing and parsing -/

theorem char_eq_of_toNat_eq {a b : Char} (h : a.toNat = b.toNat) : a = b := by
  have ha := Char.ofNat_toNat a
  rw [← ha, h, Char.ofNat_toNat]

theorem natDigitChar_toNat {d : Nat} (h : d < 10) :
    (natDigitChar d).toNat = 48 + d := by
  interval_cases d <;> rfl

theorem isDigitB_natDigitChar {d : Nat} (h : d < 10) :
    isDigitB (natDigitChar d) = true := by
  simp [isDigitB, natDigitChar_toNat h]; omega

theorem not_isPySpace_of_isDigitB {c : Char} (h : isDigitB c = true) :
    isPySpace c = false := by
  simp [isDigitB] at h
  simp [isPySpace]
  omega

theorem natDigitsAux_zero (fuel : Nat) : natDigitsAux fuel 0 = [] := by
  cases fuel <;> simp [natDigitsAux]

theorem natDigitsAux_digits :
    ∀ fuel n, n ≤ fuel → ∀ c ∈ natDigitsAux fuel n, isDigitB c = true := by
  intro fuel
  induction fuel with
  | zero => intro n hn; interval_cases n; simp [natDigitsAux]
  | succ f ih =>
    intro n hn c hc
    by_cases h0 : n = 0
    · subst h0; simp [natDigitsAux] at hc
    · rw [natDigitsAux, if_neg h0] at hc
      rcases List.mem_append.mp hc with h | h
      · exact ih (n / 10) (by omega) c h
      · simp at h
        subst h
        exact isDigitB_natDigitChar (Nat.mod_lt _ (by omega))

theorem natDigitsAux_foldl :
    ∀ fuel n, n ≤ fuel → ∀ a,
      List.foldl (fun a c => 10 * a + (c.toNat - 48)) a (natDigitsAux fuel n)
        = a * 10 ^ (natDigitsAux fuel n).length + n := by
  intro fuel
  induction fuel with
  | zero => intro n hn a; interval_cases n; simp [natDigitsAux]
  | succ f ih =>
    intro n hn a
    by_cases h0 : n = 0
    · subst h0; simp [natDigitsAux]
    · rw [natDigitsAux, if_neg h0]
      rw [List.foldl_append, ih (n / 10) (by omega) a]
      have hm : (natDigitChar (n % 10)).toNat = 48 + n % 10 :=
        natDigitChar_toNat (Nat.mod_lt _ (by omega))
      simp only [List.foldl_cons, List.foldl_nil, hm, List.length_append,
        List.length_cons, List.length_nil]
      have hpow : (10 : Nat) ^ ((natDigitsAux f (n / 10)).length + (0 + 1))
          = 10 ^ (natDigitsAux f (n / 10)).length * 10 := by
        rw [Nat.zero_add, pow_succ]
      rw [hpow]
      have hdm := Nat.div_add_mod n 10
      ring_nf
      omega

theorem natDigitsAux_ne_nil {fuel n : Nat} (hn : n ≤ fuel) (h0 : n ≠ 0) :
    natDigitsAux fuel n ≠ [] := by
  cases fuel with
  | zero => omega
  | succ f => rw [natDigitsAux, if_neg h0]; simp

theorem digitsVal_natStrBE (n : Nat) : digitsVal (natStrBE n) = some n := by
  by_cases h0 : n = 0
  · subst h0; decide
  · rw [natStrBE, if_neg h0]
    rw [digitsVal]
    rw [if_pos]
    · rw [natDigitsAux_foldl n n le_rfl 0]
      simp
    · simp only [Bool.and_eq_true, List.all_eq_true]
      refine ⟨?_, natDigitsAux_digits n n le_rfl⟩
      simp [List.isEmpty_iff, natDigitsAux_ne_nil le_rfl h0]

theorem natStrBE_all_digits (n : Nat) : ∀ c ∈ natStrBE n, isDigitB c = true := by
  by_cases h0 : n = 0
  · subst h0; decide
  · rw [natStrBE, if_neg h0]
    exact natDigitsAux_digits n n le_rfl

theorem natStrBE_ne_nil (n : Nat) : natStrBE n ≠ [] := by
  by_cases h0 : n = 0
  · subst h0; decide
  · rw [natStrBE, if_neg h0]
    exact natDigitsAux_ne_nil le_rfl h0

theorem natDigitsAux_length :
    ∀ fuel n k, n ≤ fuel → 10 ^ k ≤ n → n < 10 ^ (k + 1) →
      (natDigitsAux fuel n).length = k + 1 := by
  intro fuel
  induction fuel with
  | zero =>
    intro n k hn hk _
    have : (1 : Nat) ≤ 10 ^ k := Nat.one_le_pow _ _ (by omega)
    omega
  | succ f ih =>
    intro n k hn hk hk2
    have h0 : n ≠ 0 := by
      have : (1 : Nat) ≤ 10 ^ k := Nat.one_le_pow _ _ (by omega)
      omega
    rw [natDigitsAux, if_neg h0, List.length_append, List.length_cons,
      List.length_nil]
    cases k with
    | zero =>
      have : n / 10 = 0 := Nat.div_eq_of_lt (by simpa using hk2)
      rw [this, natDigitsAux_zero]
      simp
    | succ k' =>
      have hdiv1 : 10 ^ k' ≤ n / 10 := by
        rw [Nat.le_div_iff_mul_le (by omega)]
        calc 10 ^ k' * 10 = 10 ^ (k' + 1) := (pow_succ 10 k').symm
          _ ≤ n := hk
      have hdiv2 : n / 10 < 10 ^ (k' + 1) := by
        rw [Nat.div_lt_iff_lt_mul (by omega)]
        calc n < 10 ^ (k' + 1 + 1) := hk2
          _ = 10 ^ (k' + 1) * 10 := pow_succ 10 (k' + 1)
      rw [ih (n / 10) k' (by omega) hdiv1 hdiv2]

theorem natStrBE_length4 {y : Nat} (h1 : 1000 ≤ y) (h2 : y ≤ 9999) :
    (natStrBE y).length = 4 := by
  rw [natStrBE, if_neg (by omega)]
  exact natDigitsAux_length y y 3 le_rfl (by norm_num; omega) (by norm_num; omega)

theorem pad2L_val {m : Nat} (h : m ≤ 99) : digitsVal (pad2L m) = some m := by
  by_cases hlt : m < 10
  · rw [pad2L, if_pos hlt]
    have h0 : (natDigitChar 0).toNat = 48 := natDigitChar_toNat (by omega)
    have hm : (natDigitChar m).toNat = 48 + m := natDigitChar_toNat hlt
    rw [digitsVal, if_pos]
    · simp [h0, hm]
    · simp [isDigitB_natDigitChar hlt, isDigitB_natDigitChar (show (0:Nat) < 10 by omega)]
  · rw [pad2L, if_neg hlt]
    exact digitsVal_natStrBE m

theorem pad2L_length {m : Nat} (h : m ≤ 99) : (pad2L m).length = 2 := by
  by_cases hlt : m < 10
  · rw [pad2L, if_pos hlt]; rfl
  · rw [pad2L, if_neg hlt, natStrBE, if_neg (by omega)]
    exact natDigitsAux_length m m 1 le_rfl (by omega) (by norm_num; omega)

theorem pad2L_all_digits (m : Nat) : ∀ c ∈ pad2L m, isDigitB c = true := by
  by_cases hlt : m < 10
  · rw [pad2L, if_pos hlt]
    intro c hc
    simp only [List.mem_cons, List.not_mem_nil, or_false] at hc
    rcases hc with rfl | rfl
    · exact isDigitB_natDigitChar (by omega)
    · exact isDigitB_natDigitChar hlt
  · rw [pad2L, if_neg hlt]
    exact natStrBE_all_digits m

theorem dropWhile_space_of_digits {cs : List Char}
    (h : ∀ c ∈ cs, isDigitB c = true) : cs.dropWhile isPySpace = cs := by
  cases cs with
  | nil => rfl
  | cons c rest =>
    rw [List.dropWhile_cons,
      if_neg (by rw [not_isPySpace_of_isDigitB (h c (by simp))]; simp)]

theorem pyIntCore_digits {cs : List Char} (hne : cs ≠ [])
    (hd : ∀ c ∈ cs, isDigitB c = true) :
    pyIntCore cs = (digitsVal cs).map Int.ofNat := by
  rw [pyIntCore]
  have h1 : cs.dropWhile isPySpace = cs := dropWhile_space_of_digits hd
  have h2 : cs.reverse.dropWhile isPySpace = cs.reverse :=
    dropWhile_space_of_digits (fun c hc => hd c (List.mem_reverse.mp hc))
  rw [h1, h2, List.reverse_reverse]
  cases cs with
  | nil => exact absurd rfl hne
  | cons c rest =>
    have hc : isDigitB c = true := hd c (by simp)
    have hplus : ¬ c = '+' := by
      intro e; subst e; exact absurd hc (by decide)
    have hminus : ¬ c = '-' := by
      intro e; subst e; exact absurd hc (by decide)
    simp only [if_neg hplus, if_neg hminus]

theorem pyIntCore_natStrBE (n : Nat) :
    pyIntCore (natStrBE n) = some (n : Int) := by
  rw [pyIntCore_digits (natStrBE_ne_nil n) (natStrBE_all_digits n),
    digitsVal_natStrBE]
  rfl

theorem pad2L_ne_nil (m : Nat) : pad2L m ≠ [] := by
  by_cases hlt : m < 10
  · rw [pad2L, if_pos hlt]; simp
  · rw [pad2L, if_neg hlt]; exact natStrBE_ne_nil m

theorem pyIntCore_pad2L {m : Nat} (h : m ≤ 99) :
    pyIntCore (pad2L m) = some (m : Int) := by
  rw [pyIntCore_digits (pad2L_ne_nil m) (pad2L_all_digits m), pad2L_val h]
  rfl

theorem mkNameL_length {y m d : Nat} (c1 c2 : Char) (h1 : 1000 ≤ y)
    (h2 : y ≤ 9999) (hm : m ≤ 99) (hd : d ≤ 99) :
    (mkNameL y m d c1 c2).length = 10 := by
  simp [mkNameL, natStrBE_length4 h1 h2, pad2L_length hm, pad2L_length hd]

theorem mkNameL_take4 {y m d : Nat} (c1 c2 : Char) (h1 : 1000 ≤ y)
    (h2 : y ≤ 9999) :
    (mkNameL y m d c1 c2).take 4 = natStrBE y := by
  rw [mkNameL, show (4 : Nat) = (natStrBE y).length from
    (natStrBE_length4 h1 h2).symm]
  exact List.take_left _ _

theorem mkNameL_field2 {y m d : Nat} (c1 c2 : Char) (h1 : 1000 ≤ y)
    (h2 : y ≤ 9999) (hm : m ≤ 99) :
    ((mkNameL y m d c1 c2).drop 5).take 2 = pad2L m := by
  have hsplit : mkNameL y m d c1 c2
      = (natStrBE y ++ [c1]) ++ (pad2L m ++ c2 :: pad2L d) := by
    simp [mkNameL]
  rw [hsplit, show (5 : Nat) = (natStrBE y ++ [c1]).length by
      simp [natStrBE_length4 h1 h2],
    List.drop_left, show (2 : Nat) = (pad2L m).length from (pad2L_length hm).symm]
  exact List.take_left _ _

theorem mkNameL_field3 {y m d : Nat} (c1 c2 : Char) (h1 : 1000 ≤ y)
    (h2 : y ≤ 9999) (hm : m ≤ 99) :
    (mkNameL y m d c1 c2).drop 8 = pad2L d := by
  have hsplit : mkNameL y m d c1 c2
      = ((natStrBE y ++ [c1]) ++ (pad2L m ++ [c2])) ++ pad2L d := by
    simp [mkNameL]
  rw [hsplit, show (8 : Nat) = ((natStrBE y ++ [c1]) ++ (pad2L m ++ [c2])).length by
      simp [natStrBE_length4 h1 h2, pad2L_length hm]]
  exact List.drop_left _ _

theorem daysInMonth_le31 (y m : Nat) : daysInMonth y m ≤ 31 := by
  rw [daysInMonth]
  split_ifs <;> omega

theorem mkDatetime_coe (y m d : Nat) :
    mkDatetime (y : Int) (m : Int) (d : Int)
      = if validDate y m d then some ⟨y, m, d⟩ else none := by
  rw [mkDatetime]
  simp only [Int.toNat_natCast]
  by_cases hv : validDate y m d = true
  · simp only [validDate, Bool.and_eq_true, decide_eq_true_eq] at hv
    rw [if_pos (by constructor <;> [exact_mod_cast hv.1.1.1;
        constructor <;> [exact_mod_cast hv.1.1.2;
        constructor <;> [exact_mod_cast hv.1.2.1;
        constructor <;> [exact_mod_cast hv.1.2.2;
        constructor <;> [exact_mod_cast hv.2.1; exact_mod_cast hv.2.2]]]]]),
      if_pos (by simp only [validDate, Bool.and_eq_true, decide_eq_true_eq]; exact hv)]
  · rw [if_neg, if_neg hv]
    intro hc
    apply hv
    simp only [validDate, Bool.and_eq_true, decide_eq_true_eq]
    obtain ⟨a1, a2, a3, a4, a5, a6⟩ := hc
    refine ⟨⟨⟨?_, ?_⟩, ?_, ?_⟩, ?_, ?_⟩ <;> [exact_mod_cast a1; exact_mod_cast a2;
      exact_mod_cast a3; exact_mod_cast a4; exact_mod_cast a5; exact_mod_cast a6]

theorem path_to_dateL_mkNameL {y m d : Nat} (c1 c2 : Char) (h1 : 1000 ≤ y)
    (h2 : y ≤ 9999) (hm : m ≤ 99) (hdd : d ≤ 99) :
    path_to_dateL (mkNameL y m d c1 c2)
      = if validDate y m d then some ⟨y, m, d⟩ else none := by
  rw [path_to_dateL, if_pos (mkNameL_length c1 c2 h1 h2 hm hdd),
    mkNameL_take4 c1 c2 h1 h2, mkNameL_field2 c1 c2 h1 h2 hm,
    mkNameL_field3 c1 c2 h1 h2 hm, pyIntCore_natStrBE,
    pyIntCore_pad2L hm, pyIntCore_pad2L hdd]
  exact mkDatetime_coe y m d

/-! ### Supporting lemmas: the path order used by `scan_existing` -/

theorem chLstLt_eq_of_not_lt :
    ∀ {as bs : List Char}, chLstLt as bs = false → chLstLt bs as = false →
      as = bs := by
  intro as
  induction as with
  | nil =>
    intro bs h1 _
    cases bs with
    | nil => rfl
    | cons b bt => simp [chLstLt] at h1
  | cons a at' ih =>
    intro bs h1 h2
    cases bs with
    | nil => simp [chLstLt] at h2
    | cons b bt =>
      rw [chLstLt] at h1 h2
      by_cases hab : a.toNat < b.toNat
      · rw [if_pos hab] at h1; exact absurd h1 (by simp)
      · by_cases hba : b.toNat < a.toNat
        · rw [if_pos hba] at h2; exact absurd h2 (by simp)
        · rw [if_neg hab, if_neg hba] at h1
          rw [if_neg hba, if_neg hab] at h2
          have heq : a = b := char_eq_of_toNat_eq (by omega)
          rw [heq, ih h1 h2]

theorem chLstLt_trans :
    ∀ {as bs cs : List Char}, chLstLt as bs = true → chLstLt bs cs = true →
      chLstLt as cs = true := by
  intro as
  induction as with
  | nil =>
    intro bs cs h1 h2
    cases bs with
    | nil => simp [chLstLt] at h1
    | cons b bt =>
      cases cs with
      | nil => simp [chLstLt] at h2
      | cons c ct => simp [chLstLt]
  | cons a at' ih =>
    intro bs cs h1 h2
    cases bs with
    | nil => simp [chLstLt] at h1
    | cons b bt =>
      cases cs with
      | nil => simp [chLstLt] at h2
      | cons c ct =>
        rw [chLstLt] at h1 h2 ⊢
        by_cases hab : a.toNat < b.toNat
        · by_cases hbc : b.toNat < c.toNat
          · rw [if_pos (by omega : a.toNat < c.toNat)]
          · by_cases hcb : c.toNat < b.toNat
            · rw [if_neg hbc, if_pos hcb] at h2
              exact absurd h2 (by simp)
            · rw [if_pos (by omega : a.toNat < c.toNat)]
        · by_cases hba : b.toNat < a.toNat
          · rw [if_neg hab, if_pos hba] at h1; exact absurd h1 (by simp)
          · by_cases hbc : b.toNat < c.toNat
            · rw [if_pos (by omega : a.toNat < c.toNat)]
            · by_cases hcb : c.toNat < b.toNat
              · rw [if_neg hbc, if_pos hcb] at h2; exact absurd h2 (by simp)
              · rw [if_neg hab, if_neg hba] at h1
                rw [if_neg hbc, if_neg hcb] at h2
                rw [if_neg (by omega), if_neg (by omega)]
                exact ih h1 h2

theorem strLt_eq_of_not_lt {a b : String} (h1 : strLt a b = false)
    (h2 : strLt b a = false) : a = b :=
  String.ext (chLstLt_eq_of_not_lt h1 h2)

theorem pathLe_total : ∀ xs ys : PyPath, pathLe xs ys = true ∨ pathLe ys xs = true := by
  intro xs
  induction xs with
  | nil => intro ys; left; rfl
  | cons x xt ih =>
    intro ys
    cases ys with
    | nil => right; rfl
    | cons y yt =>
      rw [pathLe, pathLe]
      by_cases hxy : strLt x y = true
      · left; rw [if_pos hxy]
      · by_cases hyx : strLt y x = true
        · right; rw [if_pos hyx]
        · rw [if_neg hxy, if_neg hyx, if_neg hyx, if_neg hxy]
          exact ih yt

theorem pathLe_trans :
    ∀ xs ys zs : PyPath, pathLe xs ys = true → pathLe ys zs = true →
      pathLe xs zs = true := by
  intro xs
  induction xs with
  | nil => intro ys zs _ _; rfl
  | cons x xt ih =>
    intro ys zs h1 h2
    cases ys with
    | nil => simp [pathLe] at h1
    | cons y yt =>
      cases zs with
      | nil => simp [pathLe] at h2
      | cons z zt =>
        rw [pathLe] at h1 h2 ⊢
        by_cases hxy : strLt x y = true
        · by_cases hyz : strLt y z = true
          · have hxz : strLt x z = true := chLstLt_trans hxy hyz
            rw [if_pos hxz]
          · by_cases hzy : strLt z y = true
            · rw [if_neg hyz, if_pos hzy] at h2
              exact absurd h2 (by simp)
            · have hyz' : strLt y z = false := by simpa using hyz
              have hzy' : strLt z y = false := by simpa using hzy
              have heq : y = z := strLt_eq_of_not_lt hyz' hzy'
              rw [heq] at hxy
              rw [if_pos hxy]
        · by_cases hyx : strLt y x = true
          · rw [if_neg hxy, if_pos hyx] at h1; exact absurd h1 (by simp)
          · have hxy' : strLt x y = false := by simpa using hxy
            have hyx' : strLt y x = false := by simpa using hyx
            have hxey : x = y := strLt_eq_of_not_lt hxy' hyx'
            subst hxey
            by_cases hxz : strLt x z = true
            · rw [if_pos hxz]
            · by_cases hzx : strLt z x = true
              · rw [if_neg hxz, if_pos hzx] at h2; exact absurd h2 (by simp)
              · rw [if_neg hxy, if_neg hyx] at h1
                rw [if_neg hxz, if_neg hzx] at h2 ⊢
                exact ih yt zt h1 h2

instance : IsTotal Backup backupLe :=
  ⟨fun a b => pathLe_total a.path b.path⟩

instance : IsTrans Backup backupLe :=
  ⟨fun a b c => pathLe_trans a.path b.path c.path⟩

/-! ### Supporting lemmas: promotion selection and pruning -/

theorem findPromote_eq_find? (key : Backup → Nat) (target : Nat) :
    ∀ (xs : List Backup) (dflt : Backup),
      findPromote key target xs dflt
        = ((xs.find? fun b => key b == target).getD dflt) := by
  intro xs
  induction xs with
  | nil => intro dflt; rfl
  | cons x xt ih =>
    intro dflt
    by_cases hx : key x = target
    · rw [findPromote, if_pos hx, List.find?_cons_of_pos _ (by simpa using hx)]
      rfl
    · rw [findPromote, if_neg hx, List.find?_cons_of_neg _ (by simpa using hx)]
      exact ih dflt

theorem pruneLoop_eq (k : Nat) :
    ∀ xs : List Backup, (∀ b ∈ xs, is_sandboxed (some SANDBOX) b.path = true) →
      pruneLoop (some SANDBOX) execOk k xs
        = (true, (xs.take (xs.length - k)).map (fun b => Op.rmOp b.path),
            xs.drop (xs.length - k)) := by
  intro xs
  induction xs with
  | nil => intro _; simp [pruneLoop]
  | cons x xt ih =>
    intro hs
    by_cases hlen : (x :: xt).length ≤ k
    · rw [pruneLoop, if_pos hlen]
      have h0 : (x :: xt).length - k = 0 := by omega
      rw [h0, List.take_zero, List.drop_zero, List.map_nil]
    · rw [pruneLoop, if_neg hlen]
      have hrm : rm (some SANDBOX) execOk x.path true
          = (true, [Op.rmOp x.path]) := by
        rw [rm, if_neg (by rw [hs x (by simp)]; simp)]
        rfl
      rw [hrm]
      rw [ih (fun b hb => hs b (by simp [hb]))]
      have harith : (x :: xt).length - k = (xt.length - k) + 1 := by
        simp only [List.length_cons] at hlen ⊢
        omega
      rw [harith, List.take_succ_cons, List.drop_succ_cons, List.map_cons]
      rfl

/-! ### Claim theorems -/

/-- The monthly snapshot promoted in the C1 scenario: the single monthly
entry `2023_12_03`, promoted when today is 2024-01-07. -/
def bmC1 : Backup := ⟨MONTHLY_PATH ++ ["2023_12_03"], ⟨2023, 12, 3⟩⟩

theorem pyStr_obj_data_head (module addr : String) (b : Backup) :
    (pyStr module addr (.backupObjArg b)).data.head? = some '<' := by
  simp only [pyStr, String.data_append]
  rfl

/-- C1: the claim says the year-boundary branch copies the selected
monthly snapshot's directory into the yearly tier, symmetric to the
month branch.  The code instead passes the `Backup` object itself to
`sh.copy` (`sh.copy(backupMonth, YEARLY_PATH)`, not
`backupMonth.path`), so the spawned `cp` receives the object's repr —
which can never equal the snapshot's directory path — as its source:
the directory is not copied.  This contradicts the script's own
docstring ("copies oldest monthly to yearly dir") and the `.path`
convention of the month branch. -/
theorem c1_yearly_promotion_passes_object :
    yearCheck (some SANDBOX) execOk ⟨2024, 1, 7⟩ [bmC1]
        = (true, [Op.copyOp (.backupObjArg bmC1) YEARLY_PATH]) ∧
    (∀ q : PyPath, Op.copyOp (.pathArg q) YEARLY_PATH
        ∉ (yearCheck (some SANDBOX) execOk ⟨2024, 1, 7⟩ [bmC1]).2) ∧
    (∀ module addr : String,
        pyStr module addr (.backupObjArg bmC1) ≠ pathStr bmC1.path) := by
  refine ⟨by decide, ?_, ?_⟩
  · intro q hq
    rw [show (yearCheck (some SANDBOX) execOk ⟨2024, 1, 7⟩ [bmC1]).2
        = [Op.copyOp (.backupObjArg bmC1) YEARLY_PATH] from by decide] at hq
    simp at hq
  · intro module addr h
    have hh := congrArg (fun s : String => s.data.head?) h
    simp only at hh
    rw [pyStr_obj_data_head module addr bmC1] at hh
    rw [show (pathStr bmC1.path).data.head? = some '/' from by decide] at hh
    exact absurd hh (by decide)

/-- C2: with the sandbox check enabled, a copy or removal whose
destination (resp. target) is not within the sandbox boundary returns
`False` with no command spawned, so the filesystem is untouched by the
refused call. -/
theorem c2_sandbox_refusal_no_mutation :
    (∀ (sandboxDir : Option PyPath) (exec : ExecOracle) (src : SrcArg)
        (dest : PyPath), is_sandboxed sandboxDir dest = false →
        copy sandboxDir exec src dest true = (false, [])) ∧
    (∀ (sandboxDir : Option PyPath) (exec : ExecOracle) (target : PyPath),
        is_sandboxed sandboxDir target = false →
        rm sandboxDir exec target true = (false, [])) := by
  constructor
  · intro sd exec src dest h
    rw [copy, if_pos (by rw [h]; rfl)]
  · intro sd exec target h
    rw [rm, if_pos (by rw [h]; rfl)]

/-- Witness for C2: `/etc` is outside the sandbox `/media/otterback1/mirror`;
both operations refuse it without spawning anything. -/
theorem c2_sandbox_refusal_no_mutation_witness :
    is_sandboxed (some SANDBOX) ["etc"] = false ∧
    copy (some SANDBOX) execOk (.pathArg SOURCE) ["etc"] true = (false, []) ∧
    rm (some SANDBOX) execOk ["etc"] true = (false, []) :=
  ⟨by decide, c2_sandbox_refusal_no_mutation.1 _ execOk _ _ (by decide),
    c2_sandbox_refusal_no_mutation.2 _ execOk _ (by decide)⟩

/-- C3 counterexample: the claim says no string with characters other
than `'_'` at positions 4 and 7 decodes to a date; but `path_to_date`
never reads those positions, so `2024-03-05` (dashes at positions 4 and
7) decodes to 2024-03-05. -/
theorem c3_counterexample_separators_ignored :
    path_to_date "2024-03-05" = some ⟨2024, 3, 5⟩ ∧
    "2024-03-05".data.getD 4 ' ' = '-' ∧
    "2024-03-05".data.getD 7 ' ' = '-' ∧ ('-' ≠ '_') := by decide

/-- C3 amended: decode rejects every string whose length is not 10, and
every 10-character ASCII string any of whose three numeric fields
(positions 0-3, 5-6, 8-9) does not parse as an integer — the ASCII
scoping is where the embedded `int()` is exact, since CPython also
accepts non-ASCII Unicode digits and whitespace; a 10-character string
laid out as year/month/day digit fields decodes exactly when the fields
form a valid calendar date — with the characters at positions 4 and 7
ignored entirely (any separators, not just `'_'`). -/
theorem c3_amended_decode_domain :
    (∀ s : String, s.length ≠ 10 → path_to_date s = none) ∧
    (∀ (y m d : Nat) (c1 c2 : Char), 1000 ≤ y → y ≤ 9999 → m ≤ 99 → d ≤ 99 →
        path_to_date (String.mk (mkNameL y m d c1 c2))
          = if validDate y m d then some ⟨y, m, d⟩ else none) ∧
    (∀ s : String, s.length = 10 → (∀ c ∈ s.data, c.toNat < 128) →
        pyIntCore (s.data.take 4) = none ∨
          pyIntCore ((s.data.drop 5).take 2) = none ∨
          pyIntCore (s.data.drop 8) = none →
        path_to_date s = none) := by
  refine ⟨?_, ?_, ?_⟩
  · intro s hs
    have hs' : ¬ s.data.length = 10 := hs
    rw [path_to_date, path_to_dateL, if_neg hs']
  · intro y m d c1 c2 h1 h2 hm hd
    exact path_to_dateL_mkNameL c1 c2 h1 h2 hm hd
  · intro s h10 _hascii hfail
    have h10' : s.data.length = 10 := h10
    rw [path_to_date, path_to_dateL, if_pos h10']
    rcases hfail with h | h | h
    · rw [h]
    · rw [h]
      cases pyIntCore (s.data.take 4) <;> rfl
    · rw [h]
      cases pyIntCore (s.data.take 4) <;>
        cases pyIntCore ((s.data.drop 5).take 2) <;> rfl

/-- Witness for C3 amended: a short string is rejected; month 13 is
rejected even with canonical separators; dash separators decode; and a
non-numeric year, month, or day field is rejected. -/
theorem c3_amended_decode_domain_witness :
    ("abc" : String).length ≠ 10 ∧ path_to_date "abc" = none ∧
    path_to_date (String.mk (mkNameL 2024 13 5 '_' '_')) = none ∧
    path_to_date (String.mk (mkNameL 2024 3 5 '-' '-')) = some ⟨2024, 3, 5⟩ ∧
    path_to_date "xxxx_03_05" = none ∧
    path_to_date "2024_xx_05" = none ∧
    path_to_date "2024_03_xx" = none :=
  ⟨by decide, c3_amended_decode_domain.1 "abc" (by decide),
    by rw [c3_amended_decode_domain.2.1 2024 13 5 '_' '_' (by decide) (by decide)
        (by decide) (by decide)]; decide,
    by rw [c3_amended_decode_domain.2.1 2024 3 5 '-' '-' (by decide) (by decide)
        (by decide) (by decide)]; decide,
    c3_amended_decode_domain.2.2 "xxxx_03_05" (by decide) (by decide)
      (Or.inl (by decide)),
    c3_amended_decode_domain.2.2 "2024_xx_05" (by decide) (by decide)
      (Or.inr (Or.inl (by decide))),
    c3_amended_decode_domain.2.2 "2024_03_xx" (by decide) (by decide)
      (Or.inr (Or.inr (by decide)))⟩

/-- C4: on a month boundary (newest pre-existing weekly's month differs
from today's), the engine copies into the monthly tier exactly the
first weekly entry, scanning oldest to newest, whose month number
equals the newest weekly's month. -/
theorem c4_month_promotion_first_match (today : Date) (w : Backup)
    (ws : List Backup)
    (h2 : ((w :: ws).getLast (List.cons_ne_nil w ws)).date.month
      ≠ today.month) :
    ∃ sel,
      (w :: ws).find? (fun b => b.date.month
          == ((w :: ws).getLast (List.cons_ne_nil w ws)).date.month)
        = some sel ∧
      monthCheck (some SANDBOX) execOk today (w :: ws)
        = (true, [Op.copyOp (.pathArg sel.path) MONTHLY_PATH]) := by
  have hsome : ((w :: ws).find? (fun b => b.date.month
      == ((w :: ws).getLast (List.cons_ne_nil w ws)).date.month)).isSome
        = true := by
    rw [List.find?_isSome]
    exact ⟨(w :: ws).getLast (List.cons_ne_nil w ws),
      List.getLast_mem _, by simp⟩
  obtain ⟨sel, hsel⟩ := Option.isSome_iff_exists.mp hsome
  refine ⟨sel, hsel, ?_⟩
  simp only [monthCheck]
  rw [if_neg h2, findPromote_eq_find?, hsel, Option.getD_some, copy,
    if_neg (by decide)]
  rfl

/-- Witness for C4: scenario B of the spec — weekly inventory
`{2024_02_25, 2024_03_03}`, today 2024-04-01: the promoted entry is
`2024_03_03`, not `W[0]`. -/
theorem c4_month_promotion_first_match_witness :
    (([⟨WEEKLY_PATH ++ ["2024_02_25"], ⟨2024, 2, 25⟩⟩,
        ⟨WEEKLY_PATH ++ ["2024_03_03"], ⟨2024, 3, 3⟩⟩] : List Backup).getLast
          (List.cons_ne_nil _ _)).date.month ≠ (4 : Nat) ∧
    (∃ sel,
      ([⟨WEEKLY_PATH ++ ["2024_02_25"], ⟨2024, 2, 25⟩⟩,
        ⟨WEEKLY_PATH ++ ["2024_03_03"], ⟨2024, 3, 3⟩⟩] : List Backup).find?
          (fun b => b.date.month
            == (([⟨WEEKLY_PATH ++ ["2024_02_25"], ⟨2024, 2, 25⟩⟩,
                ⟨WEEKLY_PATH ++ ["2024_03_03"], ⟨2024, 3, 3⟩⟩] :
              List Backup).getLast (List.cons_ne_nil _ _)).date.month)
        = some sel ∧
      monthCheck (some SANDBOX) execOk ⟨2024, 4, 1⟩
          [⟨WEEKLY_PATH ++ ["2024_02_25"], ⟨2024, 2, 25⟩⟩,
           ⟨WEEKLY_PATH ++ ["2024_03_03"], ⟨2024, 3, 3⟩⟩]
        = (true, [Op.copyOp (.pathArg sel.path) MONTHLY_PATH])) ∧
    monthCheck (some SANDBOX) execOk ⟨2024, 4, 1⟩
        [⟨WEEKLY_PATH ++ ["2024_02_25"], ⟨2024, 2, 25⟩⟩,
         ⟨WEEKLY_PATH ++ ["2024_03_03"], ⟨2024, 3, 3⟩⟩]
      = (true, [Op.copyOp
          (.pathArg (WEEKLY_PATH ++ ["2024_03_03"])) MONTHLY_PATH]) :=
  ⟨by decide,
    c4_month_promotion_first_match ⟨2024, 4, 1⟩ _ _ (by decide),
    by decide⟩

/-- C5: pruning a date-ascending inventory of in-sandbox snapshots with
bound `k` (the engine uses `MAX_WEEKLIES - 1` and `MAX_MONTHLIES - 1`)
removes exactly the oldest `|W| - k` entries, in chronological order
oldest first, and retains exactly the suffix of the `k` most recent
entries (every removed entry predates every retained one). -/
theorem c5_prune_oldest_first (k : Nat) (xs : List Backup)
    (hs : ∀ b ∈ xs, is_sandboxed (some SANDBOX) b.path = true)
    (hsort : List.Pairwise (fun a b => dateLe a.date b.date = true) xs) :
    pruneLoop (some SANDBOX) execOk k xs
      = (true, (xs.take (xs.length - k)).map (fun b => Op.rmOp b.path),
          xs.drop (xs.length - k)) ∧
    (xs.drop (xs.length - k)).length ≤ k ∧
    ∀ a ∈ xs.take (xs.length - k), ∀ b ∈ xs.drop (xs.length - k),
      dateLe a.date b.date = true := by
  refine ⟨pruneLoop_eq k xs hs, ?_, ?_⟩
  · rw [List.length_drop]
    omega
  · have h := hsort
    rw [← List.take_append_drop (xs.length - k) xs] at h
    exact (List.pairwise_append.mp h).2.2

/-- Witness for C5: six sorted weeklies against the engine's weekly
bound `MAX_WEEKLIES - 1 = 4` — the two oldest are removed, oldest
first, and the four most recent remain. -/
theorem c5_prune_oldest_first_witness :
    (∀ b ∈ ([⟨WEEKLY_PATH ++ ["2024_01_07"], ⟨2024, 1, 7⟩⟩,
        ⟨WEEKLY_PATH ++ ["2024_01_14"], ⟨2024, 1, 14⟩⟩,
        ⟨WEEKLY_PATH ++ ["2024_01_21"], ⟨2024, 1, 21⟩⟩,
        ⟨WEEKLY_PATH ++ ["2024_01_28"], ⟨2024, 1, 28⟩⟩,
        ⟨WEEKLY_PATH ++ ["2024_02_04"], ⟨2024, 2, 4⟩⟩,
        ⟨WEEKLY_PATH ++ ["2024_02_11"], ⟨2024, 2, 11⟩⟩] : List Backup),
      is_sandboxed (some SANDBOX) b.path = true) ∧
    List.Pairwise (fun a b => dateLe a.date b.date = true)
      ([⟨WEEKLY_PATH ++ ["2024_01_07"], ⟨2024, 1, 7⟩⟩,
        ⟨WEEKLY_PATH ++ ["2024_01_14"], ⟨2024, 1, 14⟩⟩,
        ⟨WEEKLY_PATH ++ ["2024_01_21"], ⟨2024, 1, 21⟩⟩,
        ⟨WEEKLY_PATH ++ ["2024_01_28"], ⟨2024, 1, 28⟩⟩,
        ⟨WEEKLY_PATH ++ ["2024_02_04"], ⟨2024, 2, 4⟩⟩,
        ⟨WEEKLY_PATH ++ ["2024_02_11"], ⟨2024, 2, 11⟩⟩] : List Backup) ∧
    pruneLoop (some SANDBOX) execOk (MAX_WEEKLIES - 1)
        [⟨WEEKLY_PATH ++ ["2024_01_07"], ⟨2024, 1, 7⟩⟩,
         ⟨WEEKLY_PATH ++ ["2024_01_14"], ⟨2024, 1, 14⟩⟩,
         ⟨WEEKLY_PATH ++ ["2024_01_21"], ⟨2024, 1, 21⟩⟩,
         ⟨WEEKLY_PATH ++ ["2024_01_28"], ⟨2024, 1, 28⟩⟩,
         ⟨WEEKLY_PATH ++ ["2024_02_04"], ⟨2024, 2, 4⟩⟩,
         ⟨WEEKLY_PATH ++ ["2024_02_11"], ⟨2024, 2, 11⟩⟩]
      = (true, [Op.rmOp (WEEKLY_PATH ++ ["2024_01_07"]),
          Op.rmOp (WEEKLY_PATH ++ ["2024_01_14"])],
          [⟨WEEKLY_PATH ++ ["2024_01_21"], ⟨2024, 1, 21⟩⟩,
           ⟨WEEKLY_PATH ++ ["2024_01_28"], ⟨2024, 1, 28⟩⟩,
           ⟨WEEKLY_PATH ++ ["2024_02_04"], ⟨2024, 2, 4⟩⟩,
           ⟨WEEKLY_PATH ++ ["2024_02_11"], ⟨2024, 2, 11⟩⟩]) :=
  ⟨by decide, by decide, by
    rw [(c5_prune_oldest_first (MAX_WEEKLIES - 1) _ (by decide) (by decide)).1]
    decide⟩

/-- C6 counterexample: the claim says the scan returns entries sorted
ascending by date; but the code sorts by path, and a decodable name
with dash separators sorts before canonical names (`'-' < '_'` by code
point) while carrying a later date: with entries `2024_03_05` and
`2024-12-01`, the scan returns December 2024 before March 2024. -/
theorem c6_counterexample_path_order_not_date_order :
    (scan_existing MONTHLY_PATH
        [⟨"2024_03_05", true⟩, ⟨"2024-12-01", true⟩]).map (fun b => b.date)
      = [⟨2024, 12, 1⟩, ⟨2024, 3, 5⟩] ∧
    dateLe ⟨2024, 12, 1⟩ ⟨2024, 3, 5⟩ = false := by decide

/-- C6 amended: the scan considers immediate subdirectories only,
silently skips entries whose names fail to decode, and returns the
surviving entries sorted ascending by path (which coincides with date
order for canonical `YYYY_MM_DD` names); scenario E: `notadate` and a
non-directory entry never appear and cause no failure. -/
theorem c6_amended_scan_sorted_by_path :
    (∀ (parent : PyPath) (entries : List DirEntry),
        (scan_existing parent entries).Perm (validEntries parent entries) ∧
        List.Sorted backupLe (scan_existing parent entries)) ∧
    scan_existing MONTHLY_PATH
        [⟨"notadate", true⟩, ⟨"2024_03_05", true⟩, ⟨"somefile", false⟩,
         ⟨"2024_01_01", true⟩, ⟨"2024_02_10", true⟩]
      = [⟨MONTHLY_PATH ++ ["2024_01_01"], ⟨2024, 1, 1⟩⟩,
         ⟨MONTHLY_PATH ++ ["2024_02_10"], ⟨2024, 2, 10⟩⟩,
         ⟨MONTHLY_PATH ++ ["2024_03_05"], ⟨2024, 3, 5⟩⟩] := by
  constructor
  · intro parent entries
    exact ⟨List.perm_insertionSort backupLe _,
      List.sorted_insertionSort backupLe _⟩
  · decide

/-- C7: `is_sandboxed` holds exactly when the configured boundary is a
strict ancestor of the (canonical) path: false on the boundary itself,
true on every direct or nested child, false on siblings and ancestors. -/
theorem c7_boundary_strict_ancestor (B p : PyPath) :
    is_sandboxed (some B) p = true ↔ ∃ r, r ≠ [] ∧ p = B ++ r := by
  rw [is_sandboxed, List.any_eq_true]
  constructor
  · rintro ⟨q, hq, hbeq⟩
    rw [parents, List.mem_reverse, List.mem_map] at hq
    obtain ⟨i, hi, rfl⟩ := hq
    rw [List.mem_range] at hi
    have hqb : p.take i = B := by simpa using hbeq
    refine ⟨p.drop i, ?_, ?_⟩
    · rw [Ne, List.drop_eq_nil_iff]
      omega
    · rw [← hqb, List.take_append_drop]
  · rintro ⟨r, hr, rfl⟩
    refine ⟨B, ?_, by simp⟩
    rw [parents, List.mem_reverse, List.mem_map]
    refine ⟨B.length, ?_, List.take_left B r⟩
    rw [List.mem_range, List.length_append]
    have := List.length_pos.mpr hr
    omega

/-- C8: the claim says a failing `mkdir` on an in-sandbox path makes
`makeDirectory` report the failure by returning `False`; but the
error branch calls the undefined name `logg_err` (the helper is
`_log_err`), so the call raises `NameError` instead of returning
`False` — contradicting the function's own docstring
("Returns false on error"). -/
theorem c8_mkdir_error_raises_nameerror :
    mkdir (some SANDBOX) (fun _ => false) WEEKLY_PATH true
        = (.nameError, [Op.mkdirOp WEEKLY_PATH]) ∧
    (PyResult.nameError ≠ PyResult.ok false) := by decide

/-- C9 counterexample: the claim says `decode(encode(d)) = d` for every
representable date; but glibc `%Y` does not zero-pad, so the year-5
date 0005-01-02 encodes to the 7-character `5_01_02`, which decode
rejects. -/
theorem c9_counterexample_small_year :
    validDate 5 1 2 = true ∧ encodeDate ⟨5, 1, 2⟩ = "5_01_02" ∧
    path_to_date (encodeDate ⟨5, 1, 2⟩) = none := by decide

/-- C9 amended: for every representable date whose year has four digits
(year ≥ 1000), decoding the encoded name yields the date back. -/
theorem c9_amended_roundtrip (dte : Date)
    (hv : validDate dte.year dte.month dte.day = true)
    (hy : 1000 ≤ dte.year) :
    path_to_date (encodeDate dte) = some dte := by
  have hb : validDate dte.year dte.month dte.day = true := hv
  simp only [validDate, Bool.and_eq_true, decide_eq_true_eq] at hb
  have hm : dte.month ≤ 99 := by omega
  have hd31 : dte.day ≤ 99 := by
    have := daysInMonth_le31 dte.year dte.month
    omega
  have hstep : path_to_date (encodeDate dte)
      = path_to_dateL (mkNameL dte.year dte.month dte.day '_' '_') := rfl
  rw [hstep, path_to_dateL_mkNameL '_' '_' hy hb.1.1.2 hm hd31, if_pos hv]

/-- Witness for C9 amended: the representable date 2024-03-10 round
trips through the codec. -/
theorem c9_amended_roundtrip_witness :
    validDate 2024 3 10 = true ∧ 1000 ≤ 2024 ∧
    path_to_date (encodeDate ⟨2024, 3, 10⟩) = some ⟨2024, 3, 10⟩ :=
  ⟨by decide, by decide,
    c9_amended_roundtrip ⟨2024, 3, 10⟩ (by decide) (by decide)⟩

/-- C10: the month-boundary check compares month numbers only: whenever
the newest pre-existing weekly's month number equals today's, no
monthly promotion happens — even across different years. -/
theorem c10_month_number_only (today : Date) (w : Backup)
    (ws : List Backup)
    (h2 : ((w :: ws).getLast (List.cons_ne_nil w ws)).date.month
      = today.month) :
    monthCheck (some SANDBOX) execOk today (w :: ws) = (true, []) := by
  simp only [monthCheck]
  rw [if_pos h2]

/-- Witness for C10: the single weekly is dated July 2023, today is July
2024 — a year was skipped, the month numbers agree, and no promotion
is issued. -/
theorem c10_month_number_only_witness :
    (([⟨WEEKLY_PATH ++ ["2023_07_30"], ⟨2023, 7, 30⟩⟩] : List Backup).getLast
        (List.cons_ne_nil _ _)).date.month = (7 : Nat) ∧
    monthCheck (some SANDBOX) execOk ⟨2024, 7, 7⟩
        [⟨WEEKLY_PATH ++ ["2023_07_30"], ⟨2023, 7, 30⟩⟩] = (true, []) :=
  ⟨by decide,
    c10_month_number_only ⟨2024, 7, 7⟩ _ _ (by decide)⟩
